import Mathlib

/-!
Shallow embedding of `client/buck.py` (pyre-check): target normalization,
built-source-directory location, building, attribution of unresolved
normalized targets to original patterns, and the orchestration entry point
`generate_source_directories`.

Strings are Lean `String`s; all string operations used by the source are
re-implemented structurally on the underlying `List Char` so that everything
evaluates in the kernel.  External effects (the `buck` subprocess calls, the
filesystem glob, `find_root`, and the yes/no prompt) are modelled as explicit
environment inputs; raised Python exceptions are modelled as `Except` errors
carrying an exception kind (`BuckException` versus the bare `Exception` base
class) together with the message string.
-/

namespace Buck

/-! ### String helpers (structural re-implementations of the Python string ops) -/

/-- Lexicographic comparison of character lists by code point, mirroring how
Python compares strings in `sorted`. -/
def charListLe : List Char → List Char → Bool
  | [], _ => true
  | _ :: _, [] => false
  | a :: as, b :: bs =>
    if a.toNat < b.toNat then true
    else if b.toNat < a.toNat then false
    else charListLe as bs

/-- Order on strings used to model Python `sorted`. -/
def strLe (a b : String) : Prop := charListLe a.data b.data = true

instance : DecidableRel strLe := fun _ _ => inferInstanceAs (Decidable (_ = true))

/-- Python `s.startswith(p)`. -/
def strStartsWith (s p : String) : Bool := p.data.isPrefixOf s.data

/-- Python `s.endswith(p)`. -/
def strEndsWith (s p : String) : Bool := p.data.reverse.isPrefixOf s.data.reverse

/-- Python `s[:-n]` for `n ≤ len(s)`: drop the last `n` characters. -/
def strDropRight (s : String) (n : Nat) : String :=
  String.mk (s.data.take (s.data.length - n))

/-- Substring containment test on character lists (Python `in` on strings). -/
def containsSublist [DecidableEq α] (pat : List α) : List α → Bool
  | [] => pat.isEmpty
  | a :: rest => pat.isPrefixOf (a :: rest) || containsSublist pat rest

/-- Python `sub in s`. -/
def strContains (s sub : String) : Bool := containsSublist sub.data s.data

/-- Everything after the first occurrence of `//`, if any: models
`s[s.find("//") + 2:]` guarded by `find != -1`. -/
def afterDoubleSlash : List Char → Option (List Char)
  | '/' :: '/' :: rest => some rest
  | _ :: rest => afterDoubleSlash rest
  | [] => none

/-- Python split on a single separator character, keeping empty parts
(`s.split(sep)` semantics). -/
def splitOnChar (sep : Char) : List Char → List (List Char)
  | [] => [[]]
  | c :: rest =>
    let r := splitOnChar sep rest
    if c = sep then [] :: r
    else
      match r with
      | h :: t => (c :: h) :: t
      | [] => [[c]]

/-- Python `s.strip()` restricted to ASCII whitespace. -/
def stripWs (l : List Char) : List Char :=
  ((l.dropWhile Char.isWhitespace).reverse.dropWhile Char.isWhitespace).reverse

/-- Python `s.splitlines()` for newline-delimited text: split on newlines and
drop the trailing empty piece produced by a terminating newline. -/
def splitLines (s : String) : List String :=
  if s.data.isEmpty then []
  else
    let parts := (splitOnChar '\n' s.data).map String.mk
    if strEndsWith s "\n" then parts.dropLast else parts

/-- Python `l[-n:]`: the last `n` elements (all of them when fewer). -/
def lastN (n : Nat) (l : List α) : List α := l.drop (l.length - n)

/-! ### Exceptions -/

/-- The dynamic class of a raised exception: `BuckException` (declared in the
module) or the bare built-in `Exception` base class. -/
inductive ExcKind where
  | generic
  | buckException
deriving DecidableEq, Repr

/-- A raised exception: its class together with its message. -/
structure Exc where
  kind : ExcKind
  message : String
deriving DecidableEq, Repr

/-- Message of the exception raised when no `.buckconfig` ancestor exists. -/
def noBuckconfigMessage : String :=
  "No .buckconfig found in ancestors of the current directory."

/-! ### `_find_built_source_directories` -/

/-- The `BuckOut` named tuple. -/
structure BuckOut where
  source_directories : List String
  targets_not_found : List String
deriving DecidableEq, Repr

/-- Environment of the output locator: the result of
`find_root(os.getcwd(), ".buckconfig")` and the filesystem answer to each
`glob.glob` pattern. -/
structure FsEnv where
  buckRoot : Option String
  glob : String → List String

/-- The tuple of suffixes excluded by `_find_built_source_directories`. -/
def excludedSuffix (tree : String) : Bool :=
  strEndsWith tree "-vs_debugger#link-tree" ||
  strEndsWith tree "-interp#link-tree" ||
  strEndsWith tree "-ipython#link-tree"

/-- The `target_path` computation: strip everything through the first `//`
and replace every `:` with `/`. -/
def targetPathOf (target : String) : String :=
  let stripped :=
    match afterDoubleSlash target.data with
    | some rest => rest
    | none => target.data
  String.mk (stripped.map (fun c => if c = ':' then '/' else c))

/-- The glob pattern `os.path.join(buck_root, "buck-out/gen/", target_path
+ "#*link-tree")`. -/
def globPatternOf (root target : String) : String :=
  root ++ "/buck-out/gen/" ++ targetPathOf target ++ "#*link-tree"

/-- Python `sorted(targets)`. -/
def sortTargets (l : List String) : List String := l.insertionSort strLe

/-- The body of the `for target in targets` loop of
`_find_built_source_directories`, after the targets have been sorted. -/
def locateLoop (glob : String → List String) (root : String) :
    List String → List String × List String
  | [] => ([], [])
  | target :: rest =>
    let discovered := glob (globPatternOf root target)
    let r := locateLoop glob root rest
    (discovered.filter (fun tree => !excludedSuffix tree) ++ r.1,
     (if discovered.length = 0 then [target] else []) ++ r.2)

/-- Model of `_find_built_source_directories`: raises when no `.buckconfig` root is
found, otherwise sorts the targets and scans the glob results. -/
def find_built_source_directories (env : FsEnv) (targets : List String) :
    Except Exc BuckOut :=
  match env.buckRoot with
  | none => .error ⟨.generic, noBuckconfigMessage⟩
  | some root =>
    let r := locateLoop env.glob root (sortTargets targets)
    .ok ⟨r.1, r.2⟩

/-! ### `_normalize` -/

/-- Outcome of the `buck targets --show-output` subprocess call. -/
inductive QueryResult where
  | ok (stdout : String)
  | timeout (stderrSoFar : String)
  | calledProcessError (stderr : String)

/-- The command list built by `_normalize`. -/
def normalizeCommand (targets : List String) : List String :=
  ["buck", "targets", "--show-output"] ++ targets ++
    ["--type", "python_binary", "python_test"]

/-- The `BuckException` message raised on a query timeout. -/
def hangingMessage (targets : List String) : String :=
  "Seems like `" ++ String.intercalate " " (normalizeCommand targets).dropLast ++
    "` is hanging.\n   Try running `buck clean` before trying again."

/-- The `BuckException` message raised when the query exits non-zero. -/
def normalizeErrorMessage : String :=
  "Could not normalize targets. Check the paths or run `buck clean`."

/-- Parsing of the query stdout: decode, strip, split on newlines, drop empty
lines, and keep the first space-separated token of each line. -/
def normalizeParse (stdout : String) : List String :=
  let lines := (splitOnChar '\n' (stripWs stdout.data)).map String.mk
  let nonEmpty := lines.filter (fun l => !l.data.isEmpty)
  nonEmpty.map (fun l => String.mk (l.data.takeWhile (fun c => c ≠ ' ')))

/-- Model of `_normalize`: on success return the parsed target list (empty lists are
returned, with only a warning logged); a timeout or a non-zero exit raises a
`BuckException`. -/
def normalize (q : QueryResult) (targets : List String) :
    Except Exc (List String) :=
  match q with
  | .ok stdout => .ok (normalizeParse stdout)
  | .timeout _ => .error ⟨.buckException, hangingMessage targets⟩
  | .calledProcessError _ => .error ⟨.buckException, normalizeErrorMessage⟩

/-! ### `_build_targets` -/

/-- The fixed `BuckException` message raised when `buck build` fails. -/
def buildExcMessage : String :=
  "Could not build targets. Check the paths or run `buck clean`."

/-- The `LOG.info` line emitted at the start of `_build_targets`. -/
def buildInfoMessage (original_targets : List String) : String :=
  "Building target" ++ (if original_targets.length > 1 then "s:" else "") ++
    " `" ++ String.intercalate "`, `" original_targets ++ "`"

/-- The `LOG.error` line emitted when `buck build` fails: the last 20 lines
of the captured standard error. -/
def buildErrorLogMessage (stderr : String) : String :=
  "Buck returned error: " ++ String.intercalate "\n" (lastN 20 (splitLines stderr))

/-- Model of `_build_targets`: the subprocess outcome is an input (`.ok` for exit 0,
`.error stderr` for a `CalledProcessError`).  Returns the raised exception,
if any, together with the emitted log lines in order. -/
def build_targets (original_targets : List String)
    (result : Except String Unit) : Except Exc Unit × List String :=
  match result with
  | .ok _ => (.ok (), [buildInfoMessage original_targets,
                       "Finished building targets."])
  | .error stderr =>
    (.error ⟨.buckException, buildExcMessage⟩,
     [buildInfoMessage original_targets, buildErrorLogMessage stderr])

/-! ### `_map_normalized_targets_to_original` -/

/-- One scan of the `for original in original_targets` loop condition: a
`/...` glob matches when the stripped glob is a string prefix of the target,
any other pattern matches only on equality. -/
def matchesOriginal (original target : String) : Bool :=
  if strEndsWith original "/..." then
    strStartsWith target (strDropRight original 4)
  else
    target == original

/-- The `name` variable after the inner loop of
`_map_normalized_targets_to_original`: `none` when no original matched. -/
def nameForOpt (original_targets : List String) (target : String) :
    Option String :=
  original_targets.foldl
    (fun acc original =>
      if strEndsWith original "/..." then
        if strStartsWith target (strDropRight original 4) then some original
        else acc
      else
        if target == original then some original else acc)
    none

/-- The displayed name chosen for one unbuilt target: the loop result, or the
normalized target itself as fallback. -/
def nameFor (original_targets : List String) (target : String) : String :=
  match nameForOpt original_targets target with
  | some name => name
  | none => target

/-- Model of `_map_normalized_targets_to_original`: the `mapped_targets` set, realized
as a duplicate-free list in first-insertion order. -/
def map_normalized_targets_to_original
    (unbuilt_targets original_targets : List String) : List String :=
  unbuilt_targets.foldl
    (fun acc target =>
      let name := nameFor original_targets target
      if name ∈ acc then acc else acc ++ [name])
    []

/-! ### `generate_source_directories` -/

/-- Externally observable collaborator invocations of the orchestration. -/
inductive Event where
  | buildInvoked (n : Nat)
  | locateInvoked (n : Nat)
  | prompted (question : String)
deriving DecidableEq, Repr

/-- Environment of the orchestration: the query outcome, the `.buckconfig`
root, the glob answers of each of the (at most two) locate passes, the
outcome of each `buck build` invocation, the prompt answer, and `sys.argv[0]`. -/
structure OrchEnv where
  query : QueryResult
  buckRoot : Option String
  glob : Nat → String → List String
  buildResult : Nat → Except String Unit
  promptAnswer : Bool
  argv0 : String

/-- The final `BuckException` message listing the unresolved patterns. -/
def finalExcMessage (argv0 : String) (message_targets : List String) : String :=
  "Could not find link trees for:\n    `" ++
    String.intercalate "    \n" message_targets ++
    "`.\n   See `" ++ argv0 ++ " --help` for more information."

/-- The rebuild-and-relocate phase of `generate_source_directories`, entered
when some targets were not found and the retry was chosen (forced or
confirmed): build again, locate again, then either return the directories or
raise the final attribution exception. -/
def retryAndFinish (env : OrchEnv) (original_targets targets : List String)
    (retryIndex : Nat) (evs : List Event) :
    Except Exc (List String) × List Event :=
  match (build_targets original_targets (env.buildResult retryIndex)).1 with
  | .error e => (.error e, evs ++ [.buildInvoked retryIndex])
  | .ok _ =>
    match find_built_source_directories ⟨env.buckRoot, env.glob 1⟩ targets with
    | .error e =>
      (.error e, evs ++ [.buildInvoked retryIndex, .locateInvoked 1])
    | .ok buckOut1 =>
      let evsF := evs ++ [Event.buildInvoked retryIndex, Event.locateInvoked 1]
      if buckOut1.targets_not_found.isEmpty then
        (.ok buckOut1.source_directories, evsF)
      else
        (.error ⟨.buckException,
           finalExcMessage env.argv0
             (map_normalized_targets_to_original
               buckOut1.targets_not_found original_targets)⟩, evsF)

/-- The post-locate step of the orchestration: return when nothing is
missing, otherwise evaluate the Python condition
`(not build) and not prompt or log.get_yes_no_input("Build target?")` with
its short-circuit (the prompt collaborator is only invoked when the forced
branch is false), then retry or raise the attribution exception. -/
def afterLocate (env : OrchEnv) (original_targets targets : List String)
    (build prompt : Bool) (buckOut0 : BuckOut) (evs1 : List Event) :
    Except Exc (List String) × List Event :=
  if buckOut0.targets_not_found.isEmpty then
    (.ok buckOut0.source_directories, evs1)
  else
    let retryIndex : Nat := if build then 1 else 0
    if !build && !prompt then
      retryAndFinish env original_targets targets retryIndex evs1
    else if env.promptAnswer then
      retryAndFinish env original_targets targets retryIndex
        (evs1 ++ [.prompted "Build target?"])
    else
      (.error ⟨.buckException,
         finalExcMessage env.argv0
           (map_normalized_targets_to_original
             buckOut0.targets_not_found original_targets)⟩,
       evs1 ++ [.prompted "Build target?"])

/-- Model of `generate_source_directories`: normalize, optionally build, locate; on
missing targets either force a rebuild (build flag unset and prompting
disallowed) or ask; re-locate after a rebuild; finally raise on any still
missing targets, else return the source directories.  Also returns the trace
of collaborator invocations. -/
def generate_source_directories (env : OrchEnv)
    (original_targets : List String) (build : Bool) (prompt : Bool) :
    Except Exc (List String) × List Event :=
  match normalize env.query original_targets with
  | .error e => (.error e, [])
  | .ok targets =>
    match (if build then (build_targets original_targets (env.buildResult 0)).1
           else .ok ()) with
    | .error e => (.error e, [.buildInvoked 0])
    | .ok _ =>
      let evs0 : List Event := if build then [.buildInvoked 0] else []
      match find_built_source_directories ⟨env.buckRoot, env.glob 0⟩ targets with
      | .error e => (.error e, evs0 ++ [.locateInvoked 0])
      | .ok buckOut0 =>
        afterLocate env original_targets targets build prompt buckOut0
          (evs0 ++ [Event.locateInvoked 0])

/-- True when the trace contains no prompt-collaborator invocation. -/
def noPromptEvents (evs : List Event) : Bool :=
  evs.all (fun ev => match ev with | .prompted _ => false | _ => true)

/-! ### Concrete environments used by the witnesses -/

/-- Filesystem environment used by the witness of claim C2: one link tree
exists for `//a:b`, nothing for any other target. -/
def claim2Env : FsEnv :=
  ⟨some "/r", fun p => if p = globPatternOf "/r" "//a:b"
    then ["/r/buck-out/gen/a/b#link-tree"] else []⟩

/-- Orchestration environment used by the witness of claim C5: one target
normalizes, no link tree is ever found, builds succeed. -/
def claim5Env : OrchEnv :=
  ⟨.ok "//a:b //a:b.par\n", some "/r", fun _ _ => [], fun _ => .ok (),
   true, "pyre"⟩

/-- Orchestration environment used by the witness of claim C6: the
normalization query times out. -/
def claim6Env : OrchEnv :=
  ⟨.timeout "", some "/r", fun _ _ => [], fun _ => .ok (), true, "pyre"⟩

/-- Orchestration environment used by the witnesses of claims C8 and C9: the
query succeeds with empty output. -/
def claim8Env : OrchEnv :=
  ⟨.ok "", some "/r", fun _ _ => [], fun _ => .ok (), true, "pyre"⟩

/-- Filesystem environment used by the witness of claim C10. -/
def claim10Env : FsEnv := ⟨some "/r", fun _ => []⟩

/-! ### Helper lemmas: attribution -/

/-- The inner-loop step of `nameForOpt` is exactly an update on a match. -/
theorem nameForOpt_step (t o : String) (acc : Option String) :
    (if strEndsWith o "/..." then
       if strStartsWith t (strDropRight o 4) then some o else acc
     else if t == o then some o else acc)
    = if matchesOriginal o t then some o else acc := by
  unfold matchesOriginal
  by_cases h : strEndsWith o "/..." = true <;> simp [h]

/-- A nonempty list has a last element. -/
theorem getLast?_isSome_of_ne_nil {l : List α} (h : l ≠ []) :
    l.getLast?.isSome := by
  simp [List.getLast?_isSome, h]

/-- The attribution loop keeps the last matching original, seeded with `acc`. -/
theorem foldl_nameForOpt_eq (t : String) :
    ∀ (os : List String) (acc : Option String),
      os.foldl
        (fun acc original =>
          if strEndsWith original "/..." then
            if strStartsWith t (strDropRight original 4) then some original
            else acc
          else if t == original then some original else acc)
        acc
      = ((os.filter (fun o => matchesOriginal o t)).getLast?).or acc := by
  intro os
  induction os with
  | nil => intro acc; simp
  | cons o os ih =>
    intro acc
    rw [List.foldl_cons, nameForOpt_step, ih]
    cases hmo : matchesOriginal o t with
    | true =>
      simp only [hmo, if_true, List.filter_cons, ite_true]
      cases hf : os.filter (fun o => matchesOriginal o t) with
      | nil => rfl
      | cons x xs =>
        have hs : (x :: xs).getLast?.isSome := getLast?_isSome_of_ne_nil (by simp)
        cases hg : (x :: xs).getLast? with
        | none => rw [hg] at hs; simp at hs
        | some y => rw [List.getLast?_cons_cons, hg]; rfl
    | false =>
      simp only [hmo, Bool.false_eq_true, if_false, List.filter_cons, ite_false]

/-- Characterization of the `name` variable of
`_map_normalized_targets_to_original`: it is the last original pattern that
matches the target, when one exists. -/
theorem nameForOpt_eq_getLast (os : List String) (t : String) :
    nameForOpt os t = (os.filter (fun o => matchesOriginal o t)).getLast? := by
  unfold nameForOpt
  rw [foldl_nameForOpt_eq]
  simp

/-- The set-insertion fold of `_map_normalized_targets_to_original` never
loses elements already present. -/
theorem mem_foldl_insert (os : List String) (x : String) :
    ∀ (us : List String) (acc : List String), x ∈ acc →
      x ∈ us.foldl
        (fun acc target =>
          let name := nameFor os target
          if name ∈ acc then acc else acc ++ [name]) acc := by
  intro us
  induction us with
  | nil => intro acc h; simpa using h
  | cons u us ih =>
    intro acc h
    rw [List.foldl_cons]
    apply ih
    by_cases hm : nameFor os u ∈ acc <;> simp [hm, h]

/-- Every unbuilt target's displayed name appears in the mapped result. -/
theorem nameFor_mem_mapped (os : List String) (t : String) :
    ∀ (us : List String) (acc : List String), t ∈ us →
      nameFor os t ∈ us.foldl
        (fun acc target =>
          let name := nameFor os target
          if name ∈ acc then acc else acc ++ [name]) acc := by
  intro us
  induction us with
  | nil => intro acc h; simp at h
  | cons u us ih =>
    intro acc h
    rw [List.foldl_cons]
    rcases List.mem_cons.mp h with h | h
    · subst h
      apply mem_foldl_insert
      by_cases hm : nameFor os t ∈ acc <;> simp [hm]
    · exact ih _ h

/-! ### Claim C1 -/

/-- Claim C1, counterexample: the wildcard pattern `pkg/...` DOES match the
canonical target `pkgX/a` (and is used as its displayed name), even though
`pkgX/a` does not start with `pkg/` — the claim's slash-boundary rule fails
on the code, which strips the whole `/...` suffix and tests the bare prefix
`pkg`. -/
theorem claim1_boundary_counterexample :
    matchesOriginal "pkg/..." "pkgX/a" = true ∧
    strStartsWith "pkgX/a" "pkg/" = false ∧
    nameFor ["pkg/..."] "pkgX/a" = "pkg/..." ∧
    ("pkgX/a" : String) ≠ "pkg/..." := by
  refine ⟨by decide, by decide, by decide, by decide⟩

/-- Claim C1, amended: a wildcard original pattern `pre ++ "/..."` matches a
not-found canonical target exactly when the target starts with `pre` itself
(the pattern with the four characters `/...` removed) — there is no slash
boundary after `pre`; when it is the only pattern, a matching target
displays as the pattern and a non-matching one falls back to itself. -/
theorem claim1_wildcard_matching_amended (pre t : String) :
    matchesOriginal (pre ++ "/...") t = strStartsWith t pre ∧
    nameFor [pre ++ "/..."] t =
      (if strStartsWith t pre then pre ++ "/..." else t) := by
  have hends : strEndsWith (pre ++ "/...") "/..." = true := by
    unfold strEndsWith
    rw [String.data_append]
    simp [List.isPrefixOf_iff_prefix]
  have hdrop : strDropRight (pre ++ "/...") 4 = pre := by
    unfold strDropRight
    rw [String.data_append]
    have : (pre.data ++ ("/..." : String).data).length - 4 = pre.data.length := by
      simp
    rw [this]
    rw [List.take_left]
  have hmatch : matchesOriginal (pre ++ "/...") t = strStartsWith t pre := by
    unfold matchesOriginal
    rw [if_pos hends, hdrop]
  refine ⟨hmatch, ?_⟩
  unfold nameFor
  rw [nameForOpt_eq_getLast]
  by_cases h : strStartsWith t pre = true
  · simp [List.filter_cons, hmatch, h]
  · simp only [Bool.not_eq_true] at h
    simp [List.filter_cons, hmatch, h]

/-! ### Claim C4 -/

/-- Claim C4, counterexample: the not-found canonical target `//a:b` is
string-equal to the non-wildcard original pattern `//a:b`, yet the result
names the later wildcard `//a/...` instead of that pattern — the equal
pattern is not named in the result. -/
theorem claim4_exact_match_counterexample :
    strEndsWith "//a:b" "/..." = false ∧
    map_normalized_targets_to_original ["//a:b"] ["//a:b", "//a/..."]
      = ["//a/..."] ∧
    ("//a:b" : String) ∉
      map_normalized_targets_to_original ["//a:b"] ["//a:b", "//a/..."] := by
  refine ⟨by decide, by decide, by decide⟩

/-- Claim C4, amended: for every not-found canonical target string-equal to
some non-wildcard original pattern, the fallback branch is never taken: the
displayed name is an original pattern that matches the target (the last such
in input order, which can be a later wildcard rather than the equal pattern),
and that name appears in the attribution result. -/
theorem claim4_no_fallback_amended (us os : List String) (t : String)
    (hmem : t ∈ us)
    (hexact : ∃ o ∈ os, strEndsWith o "/..." = false ∧ t = o) :
    nameForOpt os t ≠ none ∧
    (∃ o ∈ os, matchesOriginal o t = true ∧ nameFor os t = o) ∧
    nameFor os t ∈ map_normalized_targets_to_original us os := by
  obtain ⟨o, ho, hw, ht⟩ := hexact
  have hmatches : matchesOriginal o t = true := by
    unfold matchesOriginal
    simp [hw, ht]
  have hfil : o ∈ os.filter (fun o => matchesOriginal o t) :=
    List.mem_filter.mpr ⟨ho, hmatches⟩
  have hne : os.filter (fun o => matchesOriginal o t) ≠ [] := by
    intro h
    rw [h] at hfil
    simp at hfil
  have hsome : (os.filter (fun o => matchesOriginal o t)).getLast?.isSome :=
    getLast?_isSome_of_ne_nil hne
  cases hg : (os.filter (fun o => matchesOriginal o t)).getLast? with
  | none => rw [hg] at hsome; simp at hsome
  | some y =>
    have hy : y ∈ os.filter (fun o => matchesOriginal o t) :=
      List.mem_of_mem_getLast? (Option.mem_def.mpr hg)
    have hyos : y ∈ os := List.mem_of_mem_filter hy
    have hym : matchesOriginal y t = true := (List.mem_filter.mp hy).2
    have hname : nameFor os t = y := by
      unfold nameFor
      rw [nameForOpt_eq_getLast, hg]
    refine ⟨?_, ⟨y, hyos, hym, hname⟩, ?_⟩
    · rw [nameForOpt_eq_getLast, hg]; simp
    · exact nameFor_mem_mapped os t us [] hmem

/-- Claim C4 amended, witness: the target `//a:b` equals the first
non-wildcard pattern; the displayed name is the (later) matching wildcard,
never the fallback, and it appears in the mapped result. -/
theorem claim4_no_fallback_amended_witness :
    nameForOpt ["//a:b", "//a/..."] "//a:b" ≠ none ∧
    (∃ o ∈ ["//a:b", "//a/..."], matchesOriginal o "//a:b" = true ∧
      nameFor ["//a:b", "//a/..."] "//a:b" = o) ∧
    nameFor ["//a:b", "//a/..."] "//a:b"
      ∈ map_normalized_targets_to_original ["//a:b"] ["//a:b", "//a/..."] :=
  claim4_no_fallback_amended ["//a:b"] ["//a:b", "//a/..."] "//a:b"
    (by decide) ⟨"//a:b", by decide, by decide, rfl⟩

/-! ### Claim C7 -/

/-- Claim C7: when at least one original pattern matches a not-found
canonical target (by the wildcard-prefix or exact-equality rule), the
displayed name is the last matching pattern in original input order,
regardless of whether earlier matches were exact or wildcard. -/
theorem claim7_last_match_wins (os : List String) (t : String)
    (h : os.filter (fun o => matchesOriginal o t) ≠ []) :
    some (nameFor os t) = (os.filter (fun o => matchesOriginal o t)).getLast? := by
  have hsome := getLast?_isSome_of_ne_nil h
  cases hg : (os.filter (fun o => matchesOriginal o t)).getLast? with
  | none => rw [hg] at hsome; simp at hsome
  | some y =>
    unfold nameFor
    rw [nameForOpt_eq_getLast, hg]

/-- Claim C7, witness: with patterns `//a:b` (exact) then `//a/...`
(wildcard), the target `//a:b` matches both and displays as the later
wildcard. -/
theorem claim7_last_match_wins_witness :
    some (nameFor ["//a:b", "//a/..."] "//a:b")
      = (["//a:b", "//a/..."].filter
          (fun o => matchesOriginal o "//a:b")).getLast? :=
  claim7_last_match_wins ["//a:b", "//a/..."] "//a:b" (by decide)

/-! ### Helper lemmas: the sort order and the locate loop -/

/-- The code-point order on character lists is total. -/
theorem charListLe_total : ∀ a b : List Char,
    charListLe a b = true ∨ charListLe b a = true := by
  intro a
  induction a with
  | nil => intro b; left; rfl
  | cons x xs ih =>
    intro b
    cases b with
    | nil => right; rfl
    | cons y ys =>
      unfold charListLe
      rcases Nat.lt_trichotomy x.toNat y.toNat with h | h | h
      · left; simp [h]
      · have h1 : ¬ x.toNat < y.toNat := by omega
        have h2 : ¬ y.toNat < x.toNat := by omega
        rcases ih ys with hc | hc
        · left; simp [h1, h2, hc]
        · right; simp [h1, h2, hc]
      · right; simp [h]

/-- The code-point order on character lists is transitive. -/
theorem charListLe_trans : ∀ a b c : List Char,
    charListLe a b = true → charListLe b c = true → charListLe a c = true := by
  intro a
  induction a with
  | nil => intro b c _ _; rfl
  | cons x xs ih =>
    intro b c hab hbc
    cases b with
    | nil => simp [charListLe] at hab
    | cons y ys =>
      cases c with
      | nil => simp [charListLe] at hbc
      | cons z zs =>
        unfold charListLe at hab hbc ⊢
        by_cases h1 : x.toNat < y.toNat
        · by_cases h2 : y.toNat < z.toNat
          · rw [if_pos (show x.toNat < z.toNat by omega)]
          · by_cases h3 : z.toNat < y.toNat
            · rw [if_neg h2, if_pos h3] at hbc
              exact absurd hbc (by decide)
            · rw [if_pos (show x.toNat < z.toNat by omega)]
        · by_cases h1' : y.toNat < x.toNat
          · rw [if_neg h1, if_pos h1'] at hab
            exact absurd hab (by decide)
          · rw [if_neg h1, if_neg h1'] at hab
            by_cases h2 : y.toNat < z.toNat
            · rw [if_pos (show x.toNat < z.toNat by omega)]
            · by_cases h3 : z.toNat < y.toNat
              · rw [if_neg h2, if_pos h3] at hbc
                exact absurd hbc (by decide)
              · rw [if_neg h2, if_neg h3] at hbc
                rw [if_neg (show ¬ x.toNat < z.toNat by omega),
                  if_neg (show ¬ z.toNat < x.toNat by omega)]
                exact ih ys zs hab hbc

/-- The code-point order on character lists is antisymmetric. -/
theorem charListLe_antisymm : ∀ a b : List Char,
    charListLe a b = true → charListLe b a = true → a = b := by
  intro a
  induction a with
  | nil =>
    intro b _ hba
    cases b with
    | nil => rfl
    | cons y ys => simp [charListLe] at hba
  | cons x xs ih =>
    intro b hab hba
    cases b with
    | nil => simp [charListLe] at hab
    | cons y ys =>
      unfold charListLe at hab hba
      by_cases h1 : x.toNat < y.toNat
      · rw [if_neg (show ¬ y.toNat < x.toNat by omega), if_pos h1] at hba
        exact absurd hba (by decide)
      · by_cases h1' : y.toNat < x.toNat
        · rw [if_neg h1, if_pos h1'] at hab
          exact absurd hab (by decide)
        · have hx : x = y := by
            have h : x.toNat = y.toNat := by omega
            apply Char.eq_of_val_eq
            apply UInt32.eq_of_val_eq
            apply Fin.ext
            simpa [Char.toNat, UInt32.toNat] using h
          rw [if_neg h1, if_neg h1'] at hab
          rw [if_neg h1', if_neg h1] at hba
          rw [hx, ih ys hab hba]

instance : IsTotal String strLe :=
  ⟨fun a b => charListLe_total a.data b.data⟩

instance : IsTrans String strLe :=
  ⟨fun a b c hab hbc => charListLe_trans a.data b.data c.data hab hbc⟩

instance : IsAntisymm String strLe :=
  ⟨fun a b hab hba => by
    have h := charListLe_antisymm a.data b.data hab hba
    cases a; cases b; exact congrArg String.mk h⟩

/-- Python `sorted` is invariant under permutation of its input. -/
theorem sortTargets_eq_of_perm {ts₁ ts₂ : List String} (h : ts₁.Perm ts₂) :
    sortTargets ts₁ = sortTargets ts₂ :=
  List.eq_of_perm_of_sorted
    ((List.perm_insertionSort strLe ts₁).trans
      (h.trans (List.perm_insertionSort strLe ts₂).symm))
    (List.sorted_insertionSort strLe ts₁)
    (List.sorted_insertionSort strLe ts₂)

/-- Membership in the sorted list is membership in the input. -/
theorem mem_sortTargets {t : String} {ts : List String} :
    t ∈ sortTargets ts ↔ t ∈ ts :=
  (List.perm_insertionSort strLe ts).mem_iff

/-- Directories surviving the locate loop never carry an excluded suffix. -/
theorem locateLoop_no_excluded (glob : String → List String) (root : String) :
    ∀ ts : List String, ∀ d ∈ (locateLoop glob root ts).1,
      excludedSuffix d = false := by
  intro ts
  induction ts with
  | nil => intro d h; simp [locateLoop] at h
  | cons t ts ih =>
    intro d h
    unfold locateLoop at h
    rcases List.mem_append.mp h with h | h
    · have := List.of_mem_filter h
      simpa using this
    · exact ih d h

/-- A target lands in the not-found list of the locate loop exactly when the
glob discovered nothing for it (before any suffix filtering). -/
theorem locateLoop_not_found_iff (glob : String → List String) (root : String) :
    ∀ ts : List String, ∀ t : String,
      t ∈ (locateLoop glob root ts).2 ↔
        ∃ u ∈ ts, u = t ∧ glob (globPatternOf root u) = [] := by
  intro ts
  induction ts with
  | nil => intro t; simp [locateLoop]
  | cons u ts ih =>
    intro t
    unfold locateLoop
    simp only [List.mem_append, ih, List.mem_cons]
    constructor
    · rintro (h | ⟨v, hv, rfl, hg⟩)
      · by_cases hz : (glob (globPatternOf root u)).length = 0
        · rw [if_pos hz] at h
          simp only [List.mem_singleton] at h
          exact ⟨u, Or.inl rfl, h.symm, List.length_eq_zero.mp hz⟩
        · rw [if_neg hz] at h
          simp at h
      · exact ⟨v, Or.inr hv, rfl, hg⟩
    · rintro ⟨v, hv | hv, rfl, hg⟩
      · subst hv
        left
        rw [if_pos (by simp [hg])]
        simp
      · right
        exact ⟨v, hv, rfl, hg⟩

/-- The not-found list of the locate loop is a sublist of the scanned
targets, hence inherits their order. -/
theorem locateLoop_not_found_sublist (glob : String → List String)
    (root : String) :
    ∀ ts : List String, List.Sublist (locateLoop glob root ts).2 ts := by
  intro ts
  induction ts with
  | nil => simp [locateLoop]
  | cons t ts ih =>
    simp only [locateLoop]
    by_cases hz : (glob (globPatternOf root t)).length = 0
    · rw [if_pos hz]
      exact List.Sublist.cons₂ t ih
    · rw [if_neg hz]
      exact List.Sublist.cons t ih

/-! ### Claim C2 -/

/-- Claim C2, counterexample: when the glob finds a single directory for the
target and it carries the excluded `-interp#link-tree` suffix, the directory
is excluded from the results but the target is NOT recorded in the not-found
list (the emptiness check runs before the suffix filter), so both output
lists are empty. -/
theorem claim2_excluded_only_counterexample :
    find_built_source_directories
        ⟨some "/r", fun _ => ["/r/buck-out/gen/a/b#foo-interp#link-tree"]⟩
        ["//a:b"]
      = .ok ⟨[], []⟩ ∧
    excludedSuffix "/r/buck-out/gen/a/b#foo-interp#link-tree" = true := by
  exact ⟨rfl, by decide⟩

/-- Claim C2, amended: directories with the three excluded suffixes never
appear in the returned source-directory list, and a target is recorded in
the not-found list exactly when the glob discovered zero directories for it
before any filtering — a target whose only discovered directories all carry
excluded suffixes is neither returned nor recorded as not found. -/
theorem claim2_exclusion_and_not_found_amended (env : FsEnv) (root : String)
    (ts : List String) (out : BuckOut)
    (hroot : env.buckRoot = some root)
    (hfind : find_built_source_directories env ts = .ok out) :
    (∀ d ∈ out.source_directories, excludedSuffix d = false) ∧
    (∀ t, t ∈ out.targets_not_found ↔
      t ∈ ts ∧ env.glob (globPatternOf root t) = []) := by
  unfold find_built_source_directories at hfind
  rw [hroot] at hfind
  simp only [Except.ok.injEq] at hfind
  obtain ⟨hs, hn⟩ : (locateLoop env.glob root (sortTargets ts)).1
        = out.source_directories ∧
      (locateLoop env.glob root (sortTargets ts)).2 = out.targets_not_found := by
    cases out
    simp only [BuckOut.mk.injEq] at hfind
    exact hfind
  constructor
  · intro d hd
    rw [← hs] at hd
    exact locateLoop_no_excluded env.glob root (sortTargets ts) d hd
  · intro t
    rw [← hn, locateLoop_not_found_iff]
    constructor
    · rintro ⟨u, hu, rfl, hg⟩
      exact ⟨mem_sortTargets.mp hu, hg⟩
    · rintro ⟨ht, hg⟩
      exact ⟨t, mem_sortTargets.mpr ht, rfl, hg⟩

/-- Claim C2 amended, witness: with a link tree for `//a:b` only, the call on
`["//a:b", "//c:d"]` returns that directory and records `//c:d` not found. -/
theorem claim2_amended_witness :
    (∀ d ∈ (⟨["/r/buck-out/gen/a/b#link-tree"], ["//c:d"]⟩ :
        BuckOut).source_directories, excludedSuffix d = false) ∧
    (∀ t, t ∈ (⟨["/r/buck-out/gen/a/b#link-tree"], ["//c:d"]⟩ :
        BuckOut).targets_not_found ↔
      t ∈ ["//a:b", "//c:d"] ∧ claim2Env.glob (globPatternOf "/r" t) = []) :=
  claim2_exclusion_and_not_found_amended claim2Env "/r" ["//a:b", "//c:d"]
    ⟨["/r/buck-out/gen/a/b#link-tree"], ["//c:d"]⟩ rfl rfl

/-! ### Claim C10 -/

/-- Claim C10: the output locator sorts its targets before scanning, so two
permutation-equal input sequences produce identical results (same
source-directory list and same not-found list), and the not-found list is
ordered by the sorted target order. -/
theorem claim10_permutation_invariant (env : FsEnv) (ts₁ ts₂ : List String)
    (h : ts₁.Perm ts₂) :
    find_built_source_directories env ts₁
      = find_built_source_directories env ts₂ ∧
    (∀ out, find_built_source_directories env ts₁ = .ok out →
      out.targets_not_found.Sorted strLe) := by
  have hs := sortTargets_eq_of_perm h
  constructor
  · unfold find_built_source_directories
    cases env.buckRoot with
    | none => rfl
    | some root => rw [hs]
  · intro out hout
    unfold find_built_source_directories at hout
    cases hroot : env.buckRoot with
    | none => rw [hroot] at hout; exact absurd hout (by simp)
    | some root =>
      rw [hroot] at hout
      simp only [Except.ok.injEq] at hout
      have hsub := locateLoop_not_found_sublist env.glob root (sortTargets ts₁)
      have hsorted : (sortTargets ts₁).Sorted strLe :=
        List.sorted_insertionSort strLe ts₁
      have hres : (locateLoop env.glob root (sortTargets ts₁)).2.Sorted strLe :=
        hsorted.sublist hsub
      cases out
      simp only [BuckOut.mk.injEq] at hout
      rw [← hout.2]
      exact hres

/-- Claim C10, witness: the two orderings of `//b:x` and `//a:y` give the
same locator result, whose not-found list is sorted. -/
theorem claim10_permutation_invariant_witness :
    (find_built_source_directories claim10Env ["//b:x", "//a:y"]
      = find_built_source_directories claim10Env ["//a:y", "//b:x"]) ∧
    (∀ out, find_built_source_directories claim10Env ["//b:x", "//a:y"]
        = .ok out → out.targets_not_found.Sorted strLe) :=
  claim10_permutation_invariant claim10Env ["//b:x", "//a:y"]
    ["//a:y", "//b:x"] (by decide)

/-! ### Claim C3 -/

/-- Claim C3, counterexample: when `buck build` fails with standard error
`err1\nerr2`, the raised exception's message is the fixed string, which does
not include the last-20-lines diagnostic (here `err1`, `err2`); that
diagnostic goes to the error log instead. -/
theorem claim3_exception_message_counterexample :
    (build_targets ["//a:b"] (.error "err1\nerr2")).1
      = .error ⟨.buckException, buildExcMessage⟩ ∧
    lastN 20 (splitLines "err1\nerr2") = ["err1", "err2"] ∧
    strContains buildExcMessage "err1" = false ∧
    strContains (buildErrorLogMessage "err1\nerr2") "err1" = true := by
  exact ⟨rfl, by decide, by decide, by decide⟩

/-- Claim C3, amended: on a non-zero build exit the builder raises the
"build failed" exception with a fixed message; the last-20-lines truncated
diagnostic (never more than 20 lines) is carried by the emitted error log
line, not by the exception message. -/
theorem claim3_build_failure_amended (os : List String) (e : String) :
    (build_targets os (.error e)).1
      = .error ⟨.buckException, buildExcMessage⟩ ∧
    (build_targets os (.error e)).2
      = [buildInfoMessage os, buildErrorLogMessage e] ∧
    (lastN 20 (splitLines e)).length ≤ 20 := by
  refine ⟨rfl, rfl, ?_⟩
  unfold lastN
  rw [List.length_drop]
  omega

/-! ### Helper lemmas: exception kinds of the components -/

/-- Both failure modes of `_normalize` raise a `BuckException`. -/
theorem normalize_error_kind (q : QueryResult) (ts : List String) (e : Exc)
    (h : normalize q ts = .error e) : e.kind = .buckException := by
  cases q with
  | ok s => exact absurd h (by simp [normalize])
  | timeout s =>
    simp only [normalize, Except.error.injEq] at h
    rw [← h]
  | calledProcessError s =>
    simp only [normalize, Except.error.injEq] at h
    rw [← h]

/-- The only failure of `_build_targets` is the fixed `BuckException`. -/
theorem build_targets_error_shape (os : List String) (r : Except String Unit)
    (e : Exc) (h : (build_targets os r).1 = .error e) :
    e = ⟨.buckException, buildExcMessage⟩ := by
  cases r with
  | ok u => simp [build_targets] at h
  | error s =>
    simp only [build_targets, Except.error.injEq] at h
    rw [← h]

/-- The only failure of `_find_built_source_directories` is the missing
build-root exception, raised through the generic base class. -/
theorem find_built_error_shape (env : FsEnv) (ts : List String) (e : Exc)
    (h : find_built_source_directories env ts = .error e) :
    e = ⟨.generic, noBuckconfigMessage⟩ := by
  unfold find_built_source_directories at h
  cases hroot : env.buckRoot with
  | none =>
    rw [hroot] at h
    simp only [Except.error.injEq] at h
    rw [← h]
  | some root =>
    rw [hroot] at h
    simp at h

/-- Every failure of the rebuild-and-relocate phase is a `BuckException`,
except a missing build root in the second locate pass. -/
theorem retryAndFinish_error_shape (env : OrchEnv)
    (os targets : List String) (idx : Nat) (evs : List Event) (e : Exc)
    (h : (retryAndFinish env os targets idx evs).1 = .error e) :
    e.kind = .buckException ∨ e = ⟨.generic, noBuckconfigMessage⟩ := by
  unfold retryAndFinish at h
  split at h
  · rename_i e' heq
    simp only [Except.error.injEq] at h
    left
    rw [← h]
    rw [build_targets_error_shape os (env.buildResult idx) e' heq]
  · rename_i u heq
    split at h
    · rename_i e' heq2
      simp only [Except.error.injEq] at h
      right
      rw [← h]
      exact find_built_error_shape _ targets e' heq2
    · rename_i buckOut1 heq2
      try dsimp only at h
      split at h
      · simp at h
      · simp only [Except.error.injEq] at h
        left
        rw [← h]

/-- Every failure of the post-locate step is a `BuckException`, except a
missing build root surfaced by the second locate pass. -/
theorem afterLocate_error_shape (env : OrchEnv) (os targets : List String)
    (b p : Bool) (out : BuckOut) (evs : List Event) (e : Exc)
    (h : (afterLocate env os targets b p out evs).1 = .error e) :
    e.kind = .buckException ∨ e = ⟨.generic, noBuckconfigMessage⟩ := by
  unfold afterLocate at h
  split at h
  · simp at h
  · try dsimp only at h
    split at h
    · exact retryAndFinish_error_shape env os targets _ _ e h
    · split at h
      · exact retryAndFinish_error_shape env os targets _ _ e h
      · simp only [Except.error.injEq] at h
        left
        rw [← h]

/-! ### Claim C6 -/

/-- Claim C6, amended: every failure raised by the module is the single
`BuckException` kind with a human-readable message, except the missing
build-root precondition, which is raised through the bare generic exception
base class. -/
theorem claim6_exception_kind_amended (env : OrchEnv)
    (os : List String) (b p : Bool) (e : Exc)
    (h : (generate_source_directories env os b p).1 = .error e) :
    e.kind = .buckException ∨ e = ⟨.generic, noBuckconfigMessage⟩ := by
  unfold generate_source_directories at h
  split at h
  · rename_i e' heq
    simp only [Except.error.injEq] at h
    left
    rw [← h]
    exact normalize_error_kind env.query os e' heq
  · rename_i targets heq
    split at h
    · rename_i e' heq2
      simp only [Except.error.injEq] at h
      left
      rw [← h]
      cases b with
      | true =>
        simp only [if_true] at heq2
        rw [build_targets_error_shape os (env.buildResult 0) e' heq2]
      | false => simp at heq2
    · rename_i u heq2
      split at h
      all_goals
        split at h
        · rename_i e' heq3
          simp only [Except.error.injEq] at h
          right
          rw [← h]
          exact find_built_error_shape _ targets e' heq3
        · rename_i buckOut0 heq3
          exact afterLocate_error_shape env os targets b p buckOut0 _ e h

/-- Claim C6, counterexample: the missing build-root failure is raised
through the bare generic exception class, while the normalization timeout is
raised through `BuckException` — two distinct exception kinds, not one. -/
theorem claim6_two_kinds_counterexample :
    find_built_source_directories ⟨none, fun _ => []⟩ []
      = .error ⟨.generic, noBuckconfigMessage⟩ ∧
    normalize (.timeout "") ["//a:b"]
      = .error ⟨.buckException, hangingMessage ["//a:b"]⟩ ∧
    ExcKind.generic ≠ ExcKind.buckException := by
  exact ⟨rfl, rfl, by decide⟩

/-- Claim C6 amended, witness: a timed-out query surfaces through the
orchestration as a `BuckException`-kind failure. -/
theorem claim6_exception_kind_amended_witness :
    (⟨.buckException, hangingMessage ["//a:b"]⟩ : Exc).kind
        = ExcKind.buckException ∨
    (⟨.buckException, hangingMessage ["//a:b"]⟩ : Exc)
        = ⟨.generic, noBuckconfigMessage⟩ :=
  claim6_exception_kind_amended claim6Env ["//a:b"] false false
    ⟨.buckException, hangingMessage ["//a:b"]⟩ rfl

/-! ### Helper lemmas: events of the retry phase -/

/-- The trace added by the rebuild-and-relocate phase: the build invocation,
and when the rebuild does not raise, the second locate pass. -/
theorem retryAndFinish_events_cases (env : OrchEnv) (os ts : List String)
    (idx : Nat) (evs : List Event) :
    (retryAndFinish env os ts idx evs).2 = evs ++ [Event.buildInvoked idx] ∨
    (retryAndFinish env os ts idx evs).2
      = evs ++ [Event.buildInvoked idx, Event.locateInvoked 1] := by
  unfold retryAndFinish
  split
  · left; rfl
  · split
    · right; rfl
    · try dsimp only
      split
      · right; rfl
      · right; rfl

/-- When the rebuild succeeds, the retry phase always performs the second
locate pass. -/
theorem retryAndFinish_events_ok (env : OrchEnv) (os ts : List String)
    (idx : Nat) (evs : List Event) (h : env.buildResult idx = .ok ()) :
    (retryAndFinish env os ts idx evs).2
      = evs ++ [Event.buildInvoked idx, Event.locateInvoked 1] := by
  unfold retryAndFinish
  rw [h]
  try dsimp only [build_targets]
  split
  · rfl
  · try dsimp only
    split
    · rfl
    · rfl

/-! ### Claim C5 -/

/-- Claim C5: when the first locate pass reports missing targets, the build
flag is false and prompting is disallowed, the prompt collaborator is never
invoked, the rebuild of the normalized targets is performed unconditionally,
and (whenever that rebuild does not itself raise) a second output-location
pass follows. -/
theorem claim5_forced_rebuild_no_prompt (env : OrchEnv)
    (os ts : List String) (out0 : BuckOut)
    (hn : normalize env.query os = .ok ts)
    (hf : find_built_source_directories ⟨env.buckRoot, env.glob 0⟩ ts
      = .ok out0)
    (hnf : out0.targets_not_found ≠ []) :
    noPromptEvents (generate_source_directories env os false false).2
      = true ∧
    Event.buildInvoked 0 ∈ (generate_source_directories env os false false).2 ∧
    (env.buildResult 0 = .ok () →
      Event.locateInvoked 1
        ∈ (generate_source_directories env os false false).2) := by
  have hempty : out0.targets_not_found.isEmpty = false := by
    simp [List.isEmpty_iff, hnf]
  have hgen : generate_source_directories env os false false
      = retryAndFinish env os ts 0 [Event.locateInvoked 0] := by
    unfold generate_source_directories
    rw [hn]
    try dsimp only
    rw [hf]
    try dsimp only
    unfold afterLocate
    rw [hempty]
    rfl
  refine ⟨?_, ?_, ?_⟩
  · rw [hgen]
    rcases retryAndFinish_events_cases env os ts 0 [Event.locateInvoked 0]
      with h2 | h2 <;> rw [h2] <;> decide
  · rw [hgen]
    rcases retryAndFinish_events_cases env os ts 0 [Event.locateInvoked 0]
      with h2 | h2 <;> rw [h2] <;> decide
  · intro hb
    rw [hgen, retryAndFinish_events_ok env os ts 0 [Event.locateInvoked 0] hb]
    decide

/-- Claim C5, witness: with one normalized target and an empty filesystem,
build flag false, prompting disallowed - no prompt, forced rebuild, second
locate pass. -/
theorem claim5_forced_rebuild_no_prompt_witness :
    noPromptEvents
        (generate_source_directories claim5Env ["//a:b"] false false).2
      = true ∧
    Event.buildInvoked 0
      ∈ (generate_source_directories claim5Env ["//a:b"] false false).2 ∧
    (claim5Env.buildResult 0 = .ok () →
      Event.locateInvoked 1
        ∈ (generate_source_directories claim5Env ["//a:b"] false false).2) :=
  claim5_forced_rebuild_no_prompt claim5Env ["//a:b"] ["//a:b"]
    ⟨[], ["//a:b"]⟩ rfl rfl (by decide)

/-! ### Claim C8 -/

/-- Claim C8: when the query succeeds with no matching target lines,
normalization returns the empty list without raising, and the orchestration
(given a discoverable build root, and a successful build step when the build
flag is set) completes without error, returning the empty directory list. -/
theorem claim8_empty_normalization_ok (env : OrchEnv) (os : List String)
    (b p : Bool) (stdout root : String)
    (hq : env.query = .ok stdout)
    (hparse : normalizeParse stdout = [])
    (hroot : env.buckRoot = some root)
    (hb : b = true → env.buildResult 0 = .ok ()) :
    normalize env.query os = .ok [] ∧
    (generate_source_directories env os b p).1 = .ok [] := by
  have hnorm : normalize env.query os = .ok [] := by
    rw [hq]
    unfold normalize
    try dsimp only
    rw [hparse]
  have hfind : find_built_source_directories ⟨env.buckRoot, env.glob 0⟩
      ([] : List String) = .ok ⟨[], []⟩ := by
    unfold find_built_source_directories
    rw [hroot]
    rfl
  refine ⟨hnorm, ?_⟩
  unfold generate_source_directories
  rw [hnorm]
  try dsimp only
  cases b with
  | false =>
    try dsimp only
    rw [hfind]
    rfl
  | true =>
    rw [hb rfl]
    try dsimp only [build_targets]
    rw [hfind]
    rfl

/-- Claim C8, witness: empty query output, build flag set with a successful
build - the orchestration returns the empty directory list. -/
theorem claim8_empty_normalization_ok_witness :
    normalize claim8Env.query ["//a:b"] = .ok [] ∧
    (generate_source_directories claim8Env ["//a:b"] true true).1
      = .ok [] :=
  claim8_empty_normalization_ok claim8Env ["//a:b"] true true "" "/r"
    rfl rfl rfl (fun _ => rfl)

/-! ### Claim C9 -/

/-- An `ok` result of the retry phase comes from a second locate pass whose
not-found list is empty. -/
theorem retryAndFinish_ok_shape (env : OrchEnv) (os ts : List String)
    (idx : Nat) (evs : List Event) (dirs : List String)
    (h : (retryAndFinish env os ts idx evs).1 = .ok dirs) :
    ∃ out, find_built_source_directories ⟨env.buckRoot, env.glob 1⟩ ts
        = .ok out ∧
      out.targets_not_found = [] ∧ dirs = out.source_directories := by
  unfold retryAndFinish at h
  split at h
  · simp at h
  · rename_i u heq
    split at h
    · simp at h
    · rename_i out1 heq2
      try dsimp only at h
      split at h
      · rename_i hempty
        simp only [Except.ok.injEq] at h
        exact ⟨out1, heq2, List.isEmpty_iff.mp hempty, h.symm⟩
      · simp at h

/-- An `ok` result of the post-locate step either returns the first pass's
directories (its not-found list empty) or comes from the retry phase. -/
theorem afterLocate_ok_shape (env : OrchEnv) (os ts : List String)
    (b p : Bool) (out : BuckOut) (evs : List Event) (dirs : List String)
    (h : (afterLocate env os ts b p out evs).1 = .ok dirs) :
    (out.targets_not_found = [] ∧ dirs = out.source_directories) ∨
    (∃ out1, find_built_source_directories ⟨env.buckRoot, env.glob 1⟩ ts
        = .ok out1 ∧
      out1.targets_not_found = [] ∧ dirs = out1.source_directories) := by
  unfold afterLocate at h
  split at h
  · rename_i hempty
    simp only [Except.ok.injEq] at h
    exact Or.inl ⟨List.isEmpty_iff.mp hempty, h.symm⟩
  · try dsimp only at h
    split at h
    · exact Or.inr (retryAndFinish_ok_shape env os ts _ _ dirs h)
    · split at h
      · exact Or.inr (retryAndFinish_ok_shape env os ts _ _ dirs h)
      · simp at h

/-- Claim C9: no partial success — whenever the entry point returns a
directory list instead of raising, that list is the source-directory list of
a locate pass (first or retry) whose not-found list is empty. -/
theorem claim9_no_partial_success (env : OrchEnv) (os : List String)
    (b p : Bool) (dirs : List String)
    (h : (generate_source_directories env os b p).1 = .ok dirs) :
    ∃ ts out, normalize env.query os = .ok ts ∧
      out.targets_not_found = [] ∧ dirs = out.source_directories ∧
      (find_built_source_directories ⟨env.buckRoot, env.glob 0⟩ ts
          = .ok out ∨
       find_built_source_directories ⟨env.buckRoot, env.glob 1⟩ ts
          = .ok out) := by
  unfold generate_source_directories at h
  split at h
  · simp at h
  · rename_i ts heq
    split at h
    · simp at h
    · rename_i u heq2
      split at h
      all_goals
        split at h
        · simp at h
        · rename_i out0 heq3
          rcases afterLocate_ok_shape env os ts b p out0 _ dirs h with
            ⟨h1, h2⟩ | ⟨out1, h1, h2, h3⟩
          · exact ⟨ts, out0, heq, h1, h2, Or.inl heq3⟩
          · exact ⟨ts, out1, heq, h2, h3, Or.inr h1⟩

/-- Claim C9, witness: with empty query output the entry point returns the
empty list, produced by a first locate pass with empty not-found list. -/
theorem claim9_no_partial_success_witness :
    ∃ ts out, normalize claim8Env.query [] = .ok ts ∧
      out.targets_not_found = [] ∧ ([] : List String)
        = out.source_directories ∧
      (find_built_source_directories ⟨claim8Env.buckRoot, claim8Env.glob 0⟩ ts
          = .ok out ∨
       find_built_source_directories ⟨claim8Env.buckRoot, claim8Env.glob 1⟩ ts
          = .ok out) :=
  claim9_no_partial_success claim8Env [] false false [] rfl

end Buck
